import Mathlib

/-!
Verification development for the mayatest repository (a Maya unit-test
helper plus a Qt test-runner dialog).  The definitions below are a shallow
embedding of the Python sources:

  - src/mayatest/mayaunittestui.py : `BaseTreeNode`, `TestNode`,
    `TestStatus`, `TestCaptureStream`, `TestTreeModel.setData`,
    `MayaTestRunnerDialog.run_failed_tests`
  - src/mayatest/mayaunittest.py : `Settings`, `set_temp_dir`,
    `TestCase.delete_temp_files`

Python objects are modelled as plain data; fallible code returns `Option`
(`none` stands for a raised exception).  The filesystem is modelled as
explicit lists of existing file and directory paths threaded through the
functions that touch it.
-/

namespace Mayatest

/-- Statuses of a test, from class `TestStatus` in mayaunittestui.py
(`not_run = 0`, `success = 1`, `fail = 2`, `error = 3`, `skipped = 4`). -/
inductive TestStatus where
  | not_run
  | success
  | fail
  | error
  | skipped
deriving DecidableEq, Repr

/-- Shallow embedding of `TestNode` (a `BaseTreeNode` subclass).  A node
wraps a Python test object `self.test`; of that object we keep exactly the
attributes the embedded methods read:
`is_test_case` is `isinstance(self.test, unittest.TestCase)`,
`className` is `self.test.__class__.__name__`,
`methodName` is `self.test._testMethodName`,
`moduleName` is `self.test.__class__.__module__`.
`status`, `tool_tip` and `children` are the mutable node attributes. -/
inductive TestNode where
  | mk (is_test_case : Bool) (className methodName moduleName : String)
       (status : TestStatus) (tool_tip : String) (children : List TestNode)

def TestNode.is_test_case : TestNode → Bool
  | .mk b _ _ _ _ _ _ => b

def TestNode.className : TestNode → String
  | .mk _ c _ _ _ _ _ => c

def TestNode.methodName : TestNode → String
  | .mk _ _ m _ _ _ _ => m

def TestNode.moduleName : TestNode → String
  | .mk _ _ _ m _ _ _ => m

def TestNode.status : TestNode → TestStatus
  | .mk _ _ _ _ s _ _ => s

def TestNode.tool_tip : TestNode → String
  | .mk _ _ _ _ _ t _ => t

def TestNode.children : TestNode → List TestNode
  | .mk _ _ _ _ _ _ cs => cs

/-- Python list indexing `l[row]` for an `int` index: non-negative indexes
count from the front, indexes in `[-len, 0)` count from the back, anything
else raises `IndexError` (modelled as `none`). -/
def pyGet {α : Type} (l : List α) (row : Int) : Option α :=
  if 0 ≤ row then l.get? row.toNat
  else if -(l.length : Int) ≤ row then l.get? ((l.length : Int) + row).toNat
  else none

/-- Embedding of `BaseTreeNode.child`: `self.children[row]`, with
`IndexError` caught and turned into `None`. -/
def TestNode.child (n : TestNode) (row : Int) : Option TestNode :=
  pyGet n.children row

/-- Embedding of `TestNode.name`.  `none` models the `AttributeError`
raised when `self.child(0)` (or `self.child(0).child(0)`) is `None`. -/
def TestNode.name? (n : TestNode) : Option String :=
  if n.is_test_case then some n.methodName
  else match n.child 0 with
    | none => none
    | some c =>
      if c.is_test_case then some c.className
      else match c.child 0 with
        | none => none
        | some g => some g.moduleName

mutual
/-- Embedding of `TestNode.get_status`.  `none` models a raised exception
(which can only come from the `self.name()` call). -/
def TestNode.get_status : TestNode → Option TestStatus
  | .mk itc cn mn modn st tt children =>
    match (TestNode.mk itc cn mn modn st tt children).name? with
    | none => none
    | some nm =>
      if nm = "ModuleImportFailure" ∨ cn = "ModuleImportFailure" then
        some TestStatus.error
      else match children with
        | [] => some st
        | cs => statusChildren cs TestStatus.not_run

/-- The `for child in self.children` loop of `get_status`, with `result`
as the accumulator.  Returning `some TestStatus.error` at an erroring
child models the early `return` (the remaining children are not visited). -/
def statusChildren : List TestNode → TestStatus → Option TestStatus
  | [], result => some result
  | child :: rest, result =>
    match child.get_status with
    | none => none
    | some child_status =>
      if child_status = TestStatus.error then some TestStatus.error
      else if child_status = TestStatus.fail then
        statusChildren rest TestStatus.fail
      else if child_status = TestStatus.success ∧ result ≠ TestStatus.fail then
        statusChildren rest TestStatus.success
      else if child_status = TestStatus.skipped ∧ result ≠ TestStatus.fail then
        statusChildren rest TestStatus.skipped
      else statusChildren rest result
end

/-- Status aggregation rule as worded in the spec (section 4.1) and in
claim C1, folded over the child statuses in iteration order with
accumulator `r`: an erroring child short-circuits to error; a failing
child sets fail; a success or skipped child overwrites the accumulator
unless it is fail; a not-run child contributes nothing. -/
def specStatusMergeFrom : List TestStatus → TestStatus → TestStatus
  | [], r => r
  | s :: rest, r =>
    if s = TestStatus.error then TestStatus.error
    else if s = TestStatus.fail then specStatusMergeFrom rest TestStatus.fail
    else if (s = TestStatus.success ∨ s = TestStatus.skipped) ∧ r ≠ TestStatus.fail then
      specStatusMergeFrom rest s
    else specStatusMergeFrom rest r

/-- Priority merge of a list of child statuses, per the spec's rule,
starting from not-run. -/
def specStatusMerge (l : List TestStatus) : TestStatus :=
  specStatusMergeFrom l TestStatus.not_run

/-- Status a child reports to its parent; the default is irrelevant for
well-formed nodes, whose `get_status` never raises. -/
def statusD (n : TestNode) : TestStatus :=
  (TestNode.get_status n).getD TestStatus.not_run

mutual
/-- Well-formedness of a node, as guaranteed by `TestNode.__init__` for
trees built from discovered tests: a `unittest.TestCase` node is a leaf;
any other node wraps a `unittest.TestSuite` (whose class is not named
`ModuleImportFailure`) and, having been kept only when
`countTestCases() > 0`, has at least one child; no test class lives in a
module named `ModuleImportFailure`. -/
def TestNode.wf : TestNode → Bool
  | .mk itc cn _ modn _ _ children =>
    (modn != "ModuleImportFailure") &&
    (if itc then children.isEmpty
     else (cn != "ModuleImportFailure") && !children.isEmpty && wfList children)

def wfList : List TestNode → Bool
  | [] => true
  | c :: rest => TestNode.wf c && wfList rest
end

mutual
/-- Every leaf of the tree has status skipped (claim C2's hypothesis). -/
def TestNode.allLeavesSkipped : TestNode → Bool
  | .mk _ _ _ _ st _ children =>
    match children with
    | [] => st == TestStatus.skipped
    | cs => allLeavesSkippedList cs

def allLeavesSkippedList : List TestNode → Bool
  | [] => true
  | c :: rest => TestNode.allLeavesSkipped c && allLeavesSkippedList rest
end

mutual
/-- No node of the tree is a module-import failure: no test class and no
test method is named `ModuleImportFailure` (claim C2's side condition). -/
def TestNode.noImportFailure : TestNode → Bool
  | .mk _ cn mn _ _ _ children =>
    (cn != "ModuleImportFailure") && (mn != "ModuleImportFailure") &&
    noImportFailureList children

def noImportFailureList : List TestNode → Bool
  | [] => true
  | c :: rest => TestNode.noImportFailure c && noImportFailureList rest
end

/-- An RGB color, standing for a `QColor`. -/
structure Color where
  r : Nat
  g : Nat
  b : Nat
deriving DecidableEq, Repr

/-- Class attribute `TestCaptureStream.success_color`. -/
def success_color : Color := ⟨92, 184, 92⟩

/-- Class attribute `TestCaptureStream.fail_color`. -/
def fail_color : Color := ⟨240, 173, 78⟩

/-- Class attribute `TestCaptureStream.error_color`. -/
def error_color : Color := ⟨217, 83, 79⟩

/-- Class attribute `TestCaptureStream.skip_color`. -/
def skip_color : Color := ⟨88, 165, 204⟩

/-- Class attribute `TestCaptureStream.normal_color`. -/
def normal_color : Color := ⟨200, 200, 200⟩

/-- Python `s.startswith(p)`, stated on the character lists of the two
strings: `p` is a prefix of `s`. -/
def pyStartsWith (s p : String) : Bool :=
  List.isPrefixOf p.data s.data

/-- State of the `QTextEdit` the capture stream writes into: the text
color currently in effect, and the list of (text, color) chunks inserted
so far — `insertPlainText` renders its argument in the current color. -/
structure TextEditState where
  currentColor : Color
  inserts : List (String × Color)
deriving DecidableEq, Repr

/-- Embedding of `TestCaptureStream.write`: a recognized literal prefix
switches the text color before `insertPlainText`; in all cases the color
is reset to `normal_color` afterwards. -/
def streamWrite (st : TextEditState) (text : String) : TextEditState :=
  let st1 :=
    if pyStartsWith text "ok" then { st with currentColor := success_color }
    else if pyStartsWith text "FAIL" then { st with currentColor := fail_color }
    else if pyStartsWith text "ERROR" then { st with currentColor := error_color }
    else if pyStartsWith text "skipped" then { st with currentColor := skip_color }
    else st
  let st2 := { st1 with inserts := st1.inserts ++ [(text, st1.currentColor)] }
  { st2 with currentColor := normal_color }

/-- Color the claim (and spec section 4.2) assigns to a chunk of output
text: prefix-matched, with `normal_color` for everything else. -/
def claimPrefixColor (text : String) : Color :=
  if pyStartsWith text "ok" then success_color
  else if pyStartsWith text "FAIL" then fail_color
  else if pyStartsWith text "ERROR" then error_color
  else if pyStartsWith text "skipped" then skip_color
  else normal_color

/-- The four mutable class attributes of `Settings` in mayaunittest.py. -/
structure Settings where
  temp_dir : String
  delete_files : Bool
  buffer_output : Bool
  file_new : Bool
deriving DecidableEq, Repr

/-- Test for `path.endswith(sep)` with `sep = "/"`: whether the last
character of the string is a slash. -/
def endsWithSlash (s : String) : Bool :=
  s.data.getLast? = some '/'

/-- Embedding of `os.path.join(a, b)` (posixpath) for a second component
`b` that does not itself start with a slash: append `b`, inserting the
separator unless `a` is empty or already ends with one. -/
def pathJoin (a b : String) : String :=
  if a = "" then b
  else if endsWithSlash a then a ++ b
  else a ++ "/" ++ b

/-- Initial value of the `Settings` class attributes.  `systemTempDir` is
the value of `tempfile.gettempdir()` and `uuid4str` the value of
`str(uuid.uuid4())` at process start, both opaque inputs here; `temp_dir`
starts as `os.path.join(tempfile.gettempdir(), "mayaunittest",
str(uuid.uuid4()))`. -/
def initSettings (systemTempDir uuid4str : String) : Settings :=
  { temp_dir := pathJoin (pathJoin systemTempDir "mayaunittest") uuid4str
  , delete_files := true
  , buffer_output := false
  , file_new := true }

/-- Embedding of `set_temp_dir`.  `existing` is the set of paths for which
`os.path.exists` is true.  The result pairs the new `Settings` state with
the message of the raised `RuntimeError`, if any: when the directory does
not exist the settings are returned unchanged. -/
def set_temp_dir (existing : List String) (directory : String) (s : Settings) :
    Settings × Option String :=
  if directory ∈ existing then ({ s with temp_dir := directory }, none)
  else (s, some (directory ++ " does not exist."))

/-- A filesystem, as the lists of existing file paths and existing
directory paths. -/
structure FileSystem where
  files : List String
  dirs : List String
deriving DecidableEq, Repr

/-- Embedding of `os.remove f`: the file path is dropped. -/
def removeFile (fs : FileSystem) (f : String) : FileSystem :=
  { fs with files := fs.files.filter (fun g => g != f) }

/-- Embedding of `shutil.rmtree d`: the directory and everything strictly
below it are dropped. -/
def rmtree (fs : FileSystem) (d : String) : FileSystem :=
  { files := fs.files.filter (fun g => !(pyStartsWith g (d ++ "/")))
  , dirs := fs.dirs.filter (fun g => (g != d) && !(pyStartsWith g (d ++ "/"))) }

/-- Embedding of `TestCase.delete_temp_files`.  `files_created` is the
class attribute of the same name; the result pairs its value after the
call with the resulting filesystem.  When `Settings.delete_files` is set,
every registered path that exists is removed, then — on the line reading
`cls.files_create = []` — a fresh attribute named `files_create` is bound
on the class; that misspelled assignment is invisible to every reader of
`files_created`, so `files_created` itself is returned unchanged.
Finally `Settings.temp_dir` is removed recursively if it exists. -/
def delete_temp_files (s : Settings) (files_created : List String)
    (fs : FileSystem) : List String × FileSystem :=
  if s.delete_files then
    let fs1 := files_created.foldl
      (fun acc f => if f ∈ acc.files then removeFile acc f else acc) fs
    let fs2 := if s.temp_dir ∈ fs1.dirs then rmtree fs1 s.temp_dir else fs1
    (files_created, fs2)
  else (files_created, fs)

/-- Selection loop of `MayaTestRunnerDialog.run_failed_tests` over
`self.model.node_lookup.values()`: keep exactly the nodes whose wrapped
test is a `unittest.TestCase` and whose `get_status()` is fail or error.
`none` models an exception escaping from a `get_status()` call; the
short-circuiting `and` only calls `get_status` on TestCase nodes. -/
def selectFailedNodes : List TestNode → Option (List TestNode)
  | [] => some []
  | n :: rest =>
    if n.is_test_case then
      match n.get_status with
      | none => none
      | some s =>
        if s = TestStatus.fail ∨ s = TestStatus.error then
          match selectFailedNodes rest with
          | none => none
          | some r => some (n :: r)
        else selectFailedNodes rest
    else selectFailedNodes rest

mutual
/-- Effect on the tree of `TestTreeModel.setData(index, v, DecorationRole)`
called on the node reached from the current node along `path`: the source
sets `node.status = value` and then, while `node.parent() is not
self._root_node`, repeats on the parent; so the addressed node and every
ancestor strictly below the tree root receive the status.  `markStatusPath
n path v` performs those writes on the subtree rooted at `n`, `n` itself
included (the top-level wrapper below keeps the root out). -/
def markStatusPath : TestNode → List Nat → TestStatus → TestNode
  | .mk itc cn mn modn _ tt children, [], v => .mk itc cn mn modn v tt children
  | .mk itc cn mn modn _ tt children, i :: rest, v =>
    .mk itc cn mn modn v tt (markStatusChild children i rest v)

def markStatusChild : List TestNode → Nat → List Nat → TestStatus → List TestNode
  | [], _, _, _ => []
  | c :: cs, 0, rest, v => markStatusPath c rest v :: cs
  | c :: cs, i + 1, rest, v => c :: markStatusChild cs i rest v
end

/-- Embedding of `TestTreeModel.setData` with `role = Qt.DecorationRole`
on the valid index of the node addressed by the nonempty row path `path`
from the root: every node on that path below the root gets `status := v`;
the root itself is never written (the recursion stops at its children). -/
def setDataDecoration (root : TestNode) (path : List Nat) (v : TestStatus) : TestNode :=
  match root, path with
  | r, [] => r
  | .mk itc cn mn modn st tt children, i :: rest =>
    .mk itc cn mn modn st tt (markStatusChild children i rest v)

mutual
/-- Effect of `TestTreeModel.setData(index, v, ToolTipRole)`: only the
addressed node's `tool_tip` is written (this branch does not recurse). -/
def setToolTipPath : TestNode → List Nat → String → TestNode
  | .mk itc cn mn modn st _ children, [], v => .mk itc cn mn modn st v children
  | .mk itc cn mn modn st tt children, i :: rest, v =>
    .mk itc cn mn modn st tt (setToolTipChild children i rest v)

def setToolTipChild : List TestNode → Nat → List Nat → String → List TestNode
  | [], _, _, _ => []
  | c :: cs, 0, rest, v => setToolTipPath c rest v :: cs
  | c :: cs, i + 1, rest, v => c :: setToolTipChild cs i rest v
end

/-- Embedding of `setData` with `role = Qt.ToolTipRole` addressed by a
row path from the root (empty path: the root itself). -/
def setDataToolTip (root : TestNode) (path : List Nat) (v : String) : TestNode :=
  match path with
  | [] => root
  | i :: rest =>
    match root with
    | .mk itc cn mn modn st tt children =>
      .mk itc cn mn modn st tt (setToolTipChild children i rest v)

/-- Attributes of a `unittest.TestCase` instance that the embedded code
reads.  `importError` is `some tb` when calling the instance's test method
raises an `ImportError` whose `traceback.format_exc()` rendering is `tb`
(this is how a `ModuleImportFailure` replays the import error), and `none`
when the call raises nothing. -/
structure PyTestCaseInfo where
  className : String
  methodName : String
  moduleName : String
  strRepr : String
  importError : Option String
deriving DecidableEq, Repr

/-- A Python test object: a `unittest.TestCase` instance or a
`unittest.TestSuite` with its member tests.  `strRepr` is `str(test)`. -/
inductive PyTest where
  | case (info : PyTestCaseInfo)
  | suite (strRepr : String) (tests : List PyTest)

def PyTest.isCase : PyTest → Bool
  | .case _ => true
  | .suite _ _ => false

mutual
/-- Embedding of `countTestCases`: the number of TestCase instances in the
test, counting through nested suites. -/
def PyTest.countTestCases : PyTest → Nat
  | .case _ => 1
  | .suite _ ts => countTestCasesList ts

def countTestCasesList : List PyTest → Nat
  | [] => 0
  | t :: rest => t.countTestCases + countTestCasesList rest
end

mutual
/-- Embedding of `TestNode.__init__`.  The tool tip starts as `str(test)`;
status starts as not-run; for a suite, a child `TestNode` is built for
every member that is a TestCase or has a positive `countTestCases()`; and
when the test's class is named `ModuleImportFailure`, the test method is
invoked once and the `ImportError` it raises is caught, its formatted
traceback becoming the tool tip (there is no retry; if the call raises
nothing the tool tip keeps `str(test)`). -/
def buildNode : PyTest → TestNode
  | .case i =>
    TestNode.mk true i.className i.methodName i.moduleName TestStatus.not_run
      (if i.className = "ModuleImportFailure" then
        match i.importError with
        | some tb => tb
        | none => i.strRepr
       else i.strRepr)
      []
  | .suite s ts =>
    TestNode.mk false "TestSuite" "" "unittest.suite" TestStatus.not_run s
      (buildChildren ts)

def buildChildren : List PyTest → List TestNode
  | [] => []
  | t :: rest =>
    if t.isCase || t.countTestCases ≠ 0 then buildNode t :: buildChildren rest
    else buildChildren rest
end

/-- Sample leaf: a passed test. -/
def successLeaf : TestNode :=
  TestNode.mk true "SampleTests" "test_ok" "test_sample" TestStatus.success "Test Passed" []

/-- Sample leaf: a failed test. -/
def failLeaf : TestNode :=
  TestNode.mk true "SampleTests" "test_bad" "test_sample" TestStatus.fail "AssertionError" []

/-- Sample leaf: a skipped test. -/
def skippedLeafA : TestNode :=
  TestNode.mk true "SampleTests" "test_skip_a" "test_sample" TestStatus.skipped "skipped" []

/-- Sample leaf: another skipped test. -/
def skippedLeafB : TestNode :=
  TestNode.mk true "SampleTests" "test_skip_b" "test_sample" TestStatus.skipped "skipped" []

/-- Sample leaf: a test that has not been run. -/
def notRunLeaf : TestNode :=
  TestNode.mk true "SampleTests" "test_new" "test_sample" TestStatus.not_run "t" []

/-- Sample suite node over the given children. -/
def suiteOver (cs : List TestNode) : TestNode :=
  TestNode.mk false "TestSuite" "" "unittest.suite" TestStatus.not_run "suite" cs

/-- Sample two-level tree: a root suite holding one inner suite holding one
not-yet-run leaf. -/
def twoLevelRoot : TestNode :=
  suiteOver [suiteOver [notRunLeaf]]

/-- Sample test-case data of a discovery import failure. -/
def importFailureInfo : PyTestCaseInfo :=
  ⟨"ModuleImportFailure", "badmod", "unittest.loader", "badmod (unittest.loader.ModuleImportFailure)",
    some "Traceback: ImportError: No module named x"⟩

/-- Sample settings with file deletion enabled (the defaults, with a fixed
temp dir). -/
def sampleSettings : Settings :=
  { temp_dir := "/tmp/mayaunittest/u", delete_files := true
  , buffer_output := false, file_new := true }

/-- Sample filesystem holding one registered temp file, one unrelated
file, the temp dir and the system temp dir. -/
def sampleFS : FileSystem :=
  ⟨["/tmp/mayaunittest/u/a.txt", "/other.txt"], ["/tmp/mayaunittest/u", "/tmp"]⟩


/-! Helper lemmas about the embedded operations. -/

theorem wfList_mem {l : List TestNode} (h : wfList l = true) {c : TestNode}
    (hc : c ∈ l) : c.wf = true := by
  induction l with
  | nil => cases hc
  | cons a rest ih =>
    simp only [wfList, Bool.and_eq_true] at h
    rcases hc with _ | hc
    · exact h.1
    · exact ih h.2 (by assumption)

theorem statusChildren_spec (l : List TestNode) (r : TestStatus)
    (h : ∀ c ∈ l, (TestNode.get_status c).isSome = true) :
    statusChildren l r = some (specStatusMergeFrom (l.map statusD) r) := by
  induction l generalizing r with
  | nil => rfl
  | cons c rest ih =>
    have hc : (TestNode.get_status c).isSome = true := h c (by simp)
    obtain ⟨s, hs⟩ := Option.isSome_iff_exists.mp hc
    have hrest : ∀ d ∈ rest, (TestNode.get_status d).isSome = true :=
      fun d hd => h d (by simp [hd])
    have hsd : statusD c = s := by simp [statusD, hs]
    simp only [statusChildren, hs, List.map_cons, specStatusMergeFrom, hsd]
    rcases s with _ | _ | _ | _ | _ <;> rcases r with _ | _ | _ | _ | _ <;>
      simp_all [ih _ hrest, specStatusMergeFrom]

theorem wf_false_parts (cc cm cmod : String) (cst : TestStatus) (ctt : String)
    (cch : List TestNode)
    (h : TestNode.wf (TestNode.mk false cc cm cmod cst ctt cch) = true) :
    cmod ≠ "ModuleImportFailure" ∧ cc ≠ "ModuleImportFailure" ∧
      cch ≠ [] ∧ wfList cch = true := by
  simp only [TestNode.wf, Bool.and_eq_true, bne_iff_ne, ne_eq, Bool.not_eq_true',
    Bool.false_eq_true, if_false, List.isEmpty_eq_false] at h
  exact ⟨h.1, h.2.1.1, h.2.1.2, h.2.2⟩

theorem wf_true_parts (cc cm cmod : String) (cst : TestStatus) (ctt : String)
    (cch : List TestNode)
    (h : TestNode.wf (TestNode.mk true cc cm cmod cst ctt cch) = true) :
    cmod ≠ "ModuleImportFailure" ∧ cch = [] := by
  simp only [TestNode.wf, Bool.and_eq_true, bne_iff_ne, ne_eq, if_true,
    List.isEmpty_iff] at h
  exact h

theorem wf_moduleName (n : TestNode) (h : n.wf = true) :
    n.moduleName ≠ "ModuleImportFailure" := by
  cases n with
  | mk itc cn mn modn st tt children =>
    cases itc with
    | true => exact (wf_true_parts cn mn modn st tt children h).1
    | false => exact (wf_false_parts cn mn modn st tt children h).1

theorem wf_name_spec (cn mn modn : String) (st : TestStatus) (tt : String)
    (c : TestNode) (cs : List TestNode)
    (hwfl : wfList (c :: cs) = true) :
    ∃ nm, (TestNode.mk false cn mn modn st tt (c :: cs)).name? = some nm ∧
      (nm = "ModuleImportFailure" → TestNode.get_status c = some TestStatus.error) := by
  simp only [wfList, Bool.and_eq_true] at hwfl
  obtain ⟨hwc, _⟩ := hwfl
  cases c with
  | mk ci cc cm cmod cst ctt cch =>
    cases ci with
    | true =>
      obtain ⟨_, hemp⟩ := wf_true_parts cc cm cmod cst ctt cch hwc
      subst hemp
      have h1 : (TestNode.mk false cn mn modn st tt
          (TestNode.mk true cc cm cmod cst ctt [] :: cs)).name? = some cc := by
        simp [TestNode.name?, TestNode.is_test_case, TestNode.child, TestNode.children,
          pyGet, TestNode.className]
      have h2 : cc = "ModuleImportFailure" →
          TestNode.get_status (TestNode.mk true cc cm cmod cst ctt []) =
            some TestStatus.error := by
        intro hcc
        rw [TestNode.get_status.eq_1]
        simp [TestNode.name?, TestNode.is_test_case, TestNode.methodName, hcc]
      exact ⟨cc, h1, h2⟩
    | false =>
      obtain ⟨hmod, hcn, hne, hwfcch⟩ := wf_false_parts cc cm cmod cst ctt cch hwc
      cases cch with
      | nil => exact absurd rfl hne
      | cons g gs =>
        cases g with
        | mk gi gc gm gmod gst gtt gch =>
          have hgmod : gmod ≠ "ModuleImportFailure" := by
            have hwg : TestNode.wf (TestNode.mk gi gc gm gmod gst gtt gch) = true := by
              simp only [wfList, Bool.and_eq_true] at hwfcch
              exact hwfcch.1
            exact wf_moduleName _ hwg
          have h1 : (TestNode.mk false cn mn modn st tt
              (TestNode.mk false cc cm cmod cst ctt
                (TestNode.mk gi gc gm gmod gst gtt gch :: gs) :: cs)).name? = some gmod := by
            simp [TestNode.name?, TestNode.is_test_case, TestNode.child, TestNode.children,
              pyGet, TestNode.moduleName]
          exact ⟨gmod, h1, fun hmm => absurd hmm hgmod⟩

theorem wf_isSome : ∀ (n : TestNode), n.wf = true → (TestNode.get_status n).isSome = true
  | .mk itc cn mn modn st tt children, h => by
    cases itc with
    | true =>
      obtain ⟨_, hemp⟩ := wf_true_parts cn mn modn st tt children h
      subst hemp
      rw [TestNode.get_status.eq_1]
      simp only [TestNode.name?, TestNode.is_test_case, TestNode.methodName, if_true]
      split <;> simp
    | false =>
      obtain ⟨hmod, hcn, hne, hwfl⟩ := wf_false_parts cn mn modn st tt children h
      cases children with
      | nil => exact absurd rfl hne
      | cons c cs =>
        obtain ⟨nm, hnm, _⟩ := wf_name_spec cn mn modn st tt c cs hwfl
        rw [TestNode.get_status.eq_2 _ _ _ _ _ _ _ (by simp), hnm]
        by_cases hm : nm = "ModuleImportFailure" ∨ cn = "ModuleImportFailure"
        · simp [hm]
        · have hall : ∀ d ∈ c :: cs, (TestNode.get_status d).isSome = true := by
            intro d hd
            exact wf_isSome d (wfList_mem hwfl hd)
          simp only [hm, if_false]
          rw [statusChildren_spec _ _ hall]
          simp
termination_by n => sizeOf n
decreasing_by
  subst_vars
  have hlt := List.sizeOf_lt_of_mem hd
  simp only [List.cons.sizeOf_spec, TestNode.mk.sizeOf_spec] at *
  omega

theorem get_status_wf_merge (n : TestNode) (h : n.wf = true)
    (hc : n.children ≠ []) :
    TestNode.get_status n = some (specStatusMerge (n.children.map statusD)) := by
  cases n with
  | mk itc cn mn modn st tt children =>
    simp only [TestNode.children] at hc
    cases itc with
    | true =>
      obtain ⟨_, hemp⟩ := wf_true_parts cn mn modn st tt children h
      exact absurd hemp hc
    | false =>
      obtain ⟨hmod, hcn, hne, hwfl⟩ := wf_false_parts cn mn modn st tt children h
      cases children with
      | nil => exact absurd rfl hne
      | cons c cs =>
        obtain ⟨nm, hnm, hmif⟩ := wf_name_spec cn mn modn st tt c cs hwfl
        rw [TestNode.get_status.eq_2 _ _ _ _ _ _ _ (by simp), hnm]
        simp only [TestNode.children]
        by_cases hm : nm = "ModuleImportFailure" ∨ cn = "ModuleImportFailure"
        · rcases hm with hm | hm
          · have hce := hmif hm
            have hsd : statusD c = TestStatus.error := by simp [statusD, hce]
            simp only [hm, true_or, if_true, List.map_cons, hsd, specStatusMerge,
              specStatusMergeFrom]
          · exact absurd hm hcn
        · have hall : ∀ d ∈ c :: cs, (TestNode.get_status d).isSome = true := by
            intro d hd
            exact wf_isSome d (wfList_mem hwfl hd)
          simp only [hm, if_false]
          exact statusChildren_spec _ _ hall

theorem noImportFailureList_mem {l : List TestNode} (h : noImportFailureList l = true)
    {c : TestNode} (hc : c ∈ l) : c.noImportFailure = true := by
  induction l with
  | nil => cases hc
  | cons a rest ih =>
    simp only [noImportFailureList, Bool.and_eq_true] at h
    rcases hc with _ | hc
    · exact h.1
    · exact ih h.2 (by assumption)

theorem allLeavesSkippedList_mem {l : List TestNode}
    (h : allLeavesSkippedList l = true) {c : TestNode} (hc : c ∈ l) :
    c.allLeavesSkipped = true := by
  induction l with
  | nil => cases hc
  | cons a rest ih =>
    simp only [allLeavesSkippedList, Bool.and_eq_true] at h
    rcases hc with _ | hc
    · exact h.1
    · exact ih h.2 (by assumption)

theorem noImportFailure_parts (itc : Bool) (cn mn modn : String) (st : TestStatus)
    (tt : String) (children : List TestNode)
    (h : TestNode.noImportFailure (TestNode.mk itc cn mn modn st tt children) = true) :
    cn ≠ "ModuleImportFailure" ∧ mn ≠ "ModuleImportFailure" ∧
      noImportFailureList children = true := by
  simp only [TestNode.noImportFailure, Bool.and_eq_true, bne_iff_ne, ne_eq] at h
  exact ⟨h.1.1, h.1.2, h.2⟩

theorem statusChildren_all_skipped (l : List TestNode) (r : TestStatus)
    (h : ∀ c ∈ l, TestNode.get_status c = some TestStatus.skipped)
    (hr : r ≠ TestStatus.fail) :
    statusChildren l r = some (if l.isEmpty then r else TestStatus.skipped) := by
  induction l generalizing r with
  | nil => simp [statusChildren]
  | cons c rest ih =>
    have hc := h c (by simp)
    rw [statusChildren.eq_2, hc]
    have hrest : ∀ d ∈ rest, TestNode.get_status d = some TestStatus.skipped :=
      fun d hd => h d (by simp [hd])
    have hstep : statusChildren rest TestStatus.skipped = some TestStatus.skipped := by
      rw [ih _ hrest (by simp)]
      simp
    simp [hr, hstep]

theorem all_skipped_get_status : ∀ (n : TestNode), n.wf = true →
    n.noImportFailure = true → n.allLeavesSkipped = true →
    TestNode.get_status n = some TestStatus.skipped
  | .mk itc cn mn modn st tt children, hw, hni, has => by
    obtain ⟨hcn, hmn, hnil⟩ := noImportFailure_parts itc cn mn modn st tt children hni
    cases itc with
    | true =>
      obtain ⟨_, hemp⟩ := wf_true_parts cn mn modn st tt children hw
      subst hemp
      have hst : st = TestStatus.skipped := by
        simp only [TestNode.allLeavesSkipped, beq_iff_eq] at has
        exact has
      rw [TestNode.get_status.eq_1]
      simp [TestNode.name?, TestNode.is_test_case, TestNode.methodName, hmn, hcn, hst]
    | false =>
      obtain ⟨hmod, _, hne, hwfl⟩ := wf_false_parts cn mn modn st tt children hw
      cases children with
      | nil => exact absurd rfl hne
      | cons c cs =>
        have hskipList : allLeavesSkippedList (c :: cs) = true := by
          simp only [TestNode.allLeavesSkipped] at has
          exact has
        have hall : ∀ d ∈ c :: cs, TestNode.get_status d = some TestStatus.skipped := by
          intro d hd
          exact all_skipped_get_status d (wfList_mem hwfl hd)
            (noImportFailureList_mem hnil hd) (allLeavesSkippedList_mem hskipList hd)
        obtain ⟨nm, hnm, hmif⟩ := wf_name_spec cn mn modn st tt c cs hwfl
        rw [TestNode.get_status.eq_2 _ _ _ _ _ _ _ (by simp), hnm]
        by_cases hm : nm = "ModuleImportFailure" ∨ cn = "ModuleImportFailure"
        · rcases hm with hm | hm
          · have h1 := hmif hm
            have h2 := hall c (by simp)
            rw [h1] at h2
            cases h2
          · exact absurd hm hcn
        · simp only [hm, if_false]
          rw [statusChildren_all_skipped _ _ hall (by simp)]
          simp
termination_by n => sizeOf n
decreasing_by
  subst_vars
  have hlt := List.sizeOf_lt_of_mem hd
  simp only [List.cons.sizeOf_spec, TestNode.mk.sizeOf_spec] at *
  omega

theorem get_status_ignores_status (itc : Bool) (cn mn modn tt : String)
    (s1 s2 : TestStatus) (c : TestNode) (cs : List TestNode) :
    TestNode.get_status (TestNode.mk itc cn mn modn s1 tt (c :: cs)) =
      TestNode.get_status (TestNode.mk itc cn mn modn s2 tt (c :: cs)) := by
  rw [TestNode.get_status.eq_2 _ _ _ _ _ _ _ (by simp),
    TestNode.get_status.eq_2 _ _ _ _ _ _ _ (by simp)]
  have hn : (TestNode.mk itc cn mn modn s1 tt (c :: cs)).name? =
      (TestNode.mk itc cn mn modn s2 tt (c :: cs)).name? := by
    simp [TestNode.name?, TestNode.is_test_case, TestNode.child, TestNode.children,
      TestNode.methodName]
  rw [hn]

theorem selectFailedNodes_mem : ∀ (nodes result : List TestNode),
    selectFailedNodes nodes = some result → ∀ n : TestNode,
    n ∈ result ↔ n ∈ nodes ∧ n.is_test_case = true ∧
      (TestNode.get_status n = some TestStatus.fail ∨
        TestNode.get_status n = some TestStatus.error) := by
  intro nodes
  induction nodes with
  | nil =>
    intro result h n
    simp only [selectFailedNodes, Option.some.injEq] at h
    subst h
    simp
  | cons m rest ih =>
    intro result h n
    by_cases hm : m.is_test_case = true
    · rcases hg : m.get_status with _ | s
      · rw [selectFailedNodes, if_pos hm, hg] at h
        cases h
      · by_cases hs : s = TestStatus.fail ∨ s = TestStatus.error
        · rw [selectFailedNodes, if_pos hm, hg] at h
          dsimp only at h
          rw [if_pos hs] at h
          rcases hrest : selectFailedNodes rest with _ | r
          · rw [hrest] at h
            cases h
          · rw [hrest] at h
            injection h with h
            subst h
            have hih := ih r hrest
            constructor
            · intro hn
              rcases List.mem_cons.mp hn with hn | hn
              · subst hn
                refine ⟨List.mem_cons_self _ _, hm, ?_⟩
                rcases hs with hs | hs <;> rw [hg, hs] <;> simp
              · obtain ⟨h1, h2, h3⟩ := (hih n).mp hn
                exact ⟨List.mem_cons_of_mem _ h1, h2, h3⟩
            · intro ⟨h1, h2, h3⟩
              rcases List.mem_cons.mp h1 with h1 | h1
              · subst h1
                exact List.mem_cons_self _ _
              · exact List.mem_cons_of_mem _ ((hih n).mpr ⟨h1, h2, h3⟩)
        · rw [selectFailedNodes, if_pos hm, hg] at h
          dsimp only at h
          rw [if_neg hs] at h
          have hih := ih result h
          rw [hih n]
          constructor
          · intro ⟨h1, h2, h3⟩
            exact ⟨List.mem_cons_of_mem _ h1, h2, h3⟩
          · intro ⟨h1, h2, h3⟩
            rcases List.mem_cons.mp h1 with h1 | h1
            · subst h1
              rw [hg] at h3
              rcases h3 with h3 | h3
              · injection h3 with h3
                exact absurd (Or.inl h3) hs
              · injection h3 with h3
                exact absurd (Or.inr h3) hs
            · exact ⟨h1, h2, h3⟩
    · rw [selectFailedNodes, if_neg hm] at h
      have hih := ih result h
      rw [hih n]
      constructor
      · intro ⟨h1, h2, h3⟩
        exact ⟨List.mem_cons_of_mem _ h1, h2, h3⟩
      · intro ⟨h1, h2, h3⟩
        rcases List.mem_cons.mp h1 with h1 | h1
        · subst h1
          exact absurd h2 hm
        · exact ⟨h1, h2, h3⟩

example (a b : String) : (a ++ b).data = a.data ++ b.data := String.data_append a b
example (a b : String) (h : a.data = b.data) : a = b := String.ext h
example {l1 l2 l3 : List Char} (h : l1 ++ l2 = l1 ++ l3) : l2 = l3 := List.append_cancel_left h
example (l1 l2 : List Char) (h : l2 ≠ []) : (l1 ++ l2).getLast? = l2.getLast? := List.getLast?_append_of_ne_nil l1 h

theorem streamWrite_claim (st : TextEditState) (text : String)
    (h : st.currentColor = normal_color) :
    streamWrite st text =
      ⟨normal_color, st.inserts ++ [(text, claimPrefixColor text)]⟩ := by
  obtain ⟨cc, ins⟩ := st
  simp only at h
  subst h
  simp only [streamWrite, claimPrefixColor]
  split_ifs <;> rfl

theorem pathJoin_of_plain (a b : String) (ha : a ≠ "") (hs : endsWithSlash a = false) :
    pathJoin a b = a ++ "/" ++ b := by
  simp [pathJoin, ha, hs]

theorem mayaunittest_data_ne : ("mayaunittest" : String).data ≠ [] := by decide

theorem joined_ne_empty (t : String) : t ++ "/" ++ "mayaunittest" ≠ "" := by
  intro he
  have hd := congrArg String.data he
  simp only [String.data_append] at hd
  have := List.append_eq_nil.mp hd
  exact mayaunittest_data_ne this.2

theorem joined_no_slash (t : String) :
    endsWithSlash (t ++ "/" ++ "mayaunittest") = false := by
  simp only [endsWithSlash, decide_eq_false_iff_not]
  rw [String.data_append, List.getLast?_append_of_ne_nil _ mayaunittest_data_ne]
  decide

theorem initTempDir_eq (t u : String) (ht : t ≠ "") (hs : endsWithSlash t = false) :
    (initSettings t u).temp_dir = t ++ "/" ++ "mayaunittest" ++ "/" ++ u := by
  simp only [initSettings]
  rw [pathJoin_of_plain t _ ht hs, pathJoin_of_plain _ u (joined_ne_empty t) (joined_no_slash t)]

theorem temp_dir_form (t u : String) :
    t ++ "/" ++ "mayaunittest" ++ "/" ++ u = t ++ "/mayaunittest/" ++ u := by
  apply String.ext
  simp only [String.data_append, List.append_assoc]
  rfl

theorem temp_dir_inj (t u1 u2 : String) (ht : t ≠ "") (hs : endsWithSlash t = false)
    (h : (initSettings t u1).temp_dir = (initSettings t u2).temp_dir) : u1 = u2 := by
  rw [initTempDir_eq t u1 ht hs, initTempDir_eq t u2 ht hs] at h
  have hd := congrArg String.data h
  simp only [String.data_append, List.append_assoc] at hd
  have h1 := List.append_cancel_left hd
  have h2 := List.append_cancel_left h1
  have h3 := List.append_cancel_left h2
  have h4 := List.append_cancel_left h3
  exact String.ext h4

theorem buildNode_import_failure (i : PyTestCaseInfo) (tb : String)
    (h1 : i.className = "ModuleImportFailure") (h2 : i.importError = some tb) :
    (buildNode (PyTest.case i)).tool_tip = tb ∧
      TestNode.get_status (buildNode (PyTest.case i)) = some TestStatus.error := by
  obtain ⟨cn, mn, modn, sr, ie⟩ := i
  simp only at h1 h2
  subst h1
  subst h2
  constructor
  · simp [buildNode, TestNode.tool_tip]
  · have hb : buildNode (PyTest.case
        ⟨"ModuleImportFailure", mn, modn, sr, some tb⟩) =
        TestNode.mk true "ModuleImportFailure" mn modn TestStatus.not_run tb [] := by
      simp [buildNode]
    rw [hb, TestNode.get_status.eq_1]
    simp [TestNode.name?, TestNode.is_test_case, TestNode.methodName]

theorem set_temp_dir_spec (existing : List String) (directory : String) (s : Settings) :
    (directory ∈ existing →
      set_temp_dir existing directory s = ({ s with temp_dir := directory }, none)) ∧
    (directory ∉ existing →
      set_temp_dir existing directory s = (s, some (directory ++ " does not exist."))) := by
  constructor
  · intro h
    simp [set_temp_dir, h]
  · intro h
    simp [set_temp_dir, h]

theorem child_bounds (n : TestNode) (row : Int) :
    ((n.children.length : Int) ≤ row → n.child row = none) ∧
    (0 ≤ row → row < (n.children.length : Int) →
      n.child row = n.children.get? row.toNat ∧ (n.child row).isSome = true) := by
  constructor
  · intro hge
    have h0 : 0 ≤ row := le_trans (Int.natCast_nonneg _) hge
    simp only [TestNode.child, pyGet, if_pos h0]
    apply List.get?_eq_none.mpr
    omega
  · intro h0 hlt
    have hlt2 : row.toNat < n.children.length := by omega
    have he : n.child row = n.children.get? row.toNat := by
      simp only [TestNode.child, pyGet, if_pos h0]
    refine ⟨he, ?_⟩
    rw [he, List.get?_eq_get hlt2]
    rfl


/-! Claim theorems. -/

/-- C1: for every well-formed TestNode with at least one child,
`get_status` returns exactly the spec's priority merge of the children's
reported statuses, evaluated in iteration order (error short-circuits;
fail beats success and skipped; the most recently seen of success or
skipped wins otherwise; not-run when no child contributes). -/
theorem C1_get_status_is_priority_merge (n : TestNode) (h : n.wf = true)
    (hc : n.children ≠ []) :
    TestNode.get_status n = some (specStatusMerge (n.children.map statusD)) :=
  get_status_wf_merge n h hc

/-- C1 witness: a suite of one passed and one failed leaf merges to fail. -/
theorem C1_witness :
    (suiteOver [successLeaf, failLeaf]).wf = true ∧
      (suiteOver [successLeaf, failLeaf]).children ≠ [] ∧
      TestNode.get_status (suiteOver [successLeaf, failLeaf]) =
        some (specStatusMerge ((suiteOver [successLeaf, failLeaf]).children.map statusD)) :=
  ⟨by decide, by simp [suiteOver, TestNode.children],
    C1_get_status_is_priority_merge (suiteOver [successLeaf, failLeaf]) (by decide)
      (by simp [suiteOver, TestNode.children])⟩

/-- C2: for every well-formed tree in which every leaf has status skipped
and no node is a module-import failure, `get_status` on the root returns
skipped. -/
theorem C2_all_skipped_root_is_skipped (n : TestNode) (h1 : n.wf = true)
    (h2 : n.noImportFailure = true) (h3 : n.allLeavesSkipped = true) :
    TestNode.get_status n = some TestStatus.skipped :=
  all_skipped_get_status n h1 h2 h3

/-- C2 witness: a suite of two skipped leaves reports skipped. -/
theorem C2_witness :
    (suiteOver [skippedLeafA, skippedLeafB]).wf = true ∧
      (suiteOver [skippedLeafA, skippedLeafB]).noImportFailure = true ∧
      (suiteOver [skippedLeafA, skippedLeafB]).allLeavesSkipped = true ∧
      TestNode.get_status (suiteOver [skippedLeafA, skippedLeafB]) =
        some TestStatus.skipped :=
  ⟨by decide, by decide, by decide,
    C2_all_skipped_root_is_skipped (suiteOver [skippedLeafA, skippedLeafB])
      (by decide) (by decide) (by decide)⟩

/-- C3 counterexample: the claim says a non-leaf node's status field is
never set directly by any operation, but `setData` with the decoration
role writes the field of every ancestor below the root: on a root holding
an inner suite holding a leaf, setting the leaf's decoration to fail also
flips the inner suite's stored status field from not-run to fail, and that
inner node has a child (it is not a leaf). -/
theorem C3_counterexample :
    ((setDataDecoration twoLevelRoot [0, 0] TestStatus.fail).child 0).map TestNode.status =
        some TestStatus.fail ∧
      (twoLevelRoot.child 0).map TestNode.status = some TestStatus.not_run ∧
      ((setDataDecoration twoLevelRoot [0, 0] TestStatus.fail).child 0).map
          (fun m => m.children.length) = some 1 := by
  decide

/-- C3 amended: the status `get_status` reports for a node with children
is always recomputed from the children and ignores the node's stored
status field entirely (so the direct writes `setData` performs on ancestor
nodes' status fields are never read back); only a leaf's stored status
field feeds the result. -/
theorem C3_nonleaf_stored_status_ignored (itc : Bool) (cn mn modn tt : String)
    (s1 s2 : TestStatus) (c : TestNode) (cs : List TestNode) :
    TestNode.get_status (TestNode.mk itc cn mn modn s1 tt (c :: cs)) =
      TestNode.get_status (TestNode.mk itc cn mn modn s2 tt (c :: cs)) :=
  get_status_ignores_status itc cn mn modn tt s1 s2 c cs

/-- C4: starting from the color state the stream itself re-establishes
after every write (`normal_color`), `write` renders the text in the color
determined by the literal prefix match — ok, FAIL, ERROR, skipped, or the
normal color for anything else — and leaves the color normal again. -/
theorem C4_write_colors_by_literal_match (st : TextEditState) (text : String)
    (h : st.currentColor = normal_color) :
    streamWrite st text =
      ⟨normal_color, st.inserts ++ [(text, claimPrefixColor text)]⟩ :=
  streamWrite_claim st text h

/-- C4 witness: a line starting with FAIL is inserted in the fail color. -/
theorem C4_witness :
    streamWrite ⟨normal_color, []⟩ "FAIL: test_bad" =
      ⟨normal_color, [("FAIL: test_bad", claimPrefixColor "FAIL: test_bad")]⟩ :=
  C4_write_colors_by_literal_match ⟨normal_color, []⟩ "FAIL: test_bad" rfl

/-- C5: building a TestNode over a ModuleImportFailure test whose replayed
call raises an ImportError with formatted traceback `tb` stores `tb` as
the node's tool tip, and `get_status` on that node returns error. -/
theorem C5_import_failure_captured (i : PyTestCaseInfo) (tb : String)
    (h1 : i.className = "ModuleImportFailure") (h2 : i.importError = some tb) :
    (buildNode (PyTest.case i)).tool_tip = tb ∧
      TestNode.get_status (buildNode (PyTest.case i)) = some TestStatus.error :=
  buildNode_import_failure i tb h1 h2

/-- C5 witness: a concrete import-failure test produces an error node with
the traceback as tool tip. -/
theorem C5_witness :
    (buildNode (PyTest.case importFailureInfo)).tool_tip =
        "Traceback: ImportError: No module named x" ∧
      TestNode.get_status (buildNode (PyTest.case importFailureInfo)) =
        some TestStatus.error :=
  C5_import_failure_captured importFailureInfo
    "Traceback: ImportError: No module named x" (by decide) (by decide)

/-- C6: for a system temp directory that is nonempty and does not end in a
slash, the initial `Settings.temp_dir` is exactly
`<system temp dir>/mayaunittest/<uuid4 string>`, and distinct uuid strings
give distinct temp directories, separating independent runs. -/
theorem C6_temp_dir_is_uuid_path (t u1 u2 : String) (ht : t ≠ "")
    (hs : endsWithSlash t = false) (hu : u1 ≠ u2) :
    (initSettings t u1).temp_dir = t ++ "/mayaunittest/" ++ u1 ∧
      (initSettings t u1).temp_dir ≠ (initSettings t u2).temp_dir :=
  ⟨(initTempDir_eq t u1 ht hs).trans (temp_dir_form t u1),
    fun h => hu (temp_dir_inj t u1 u2 ht hs h)⟩

/-- C6 witness: with system temp dir /tmp and two distinct uuid strings,
the initial temp dirs take the stated form and differ. -/
theorem C6_witness :
    (initSettings "/tmp" "1f2e3d4c").temp_dir = "/tmp" ++ "/mayaunittest/" ++ "1f2e3d4c" ∧
      (initSettings "/tmp" "1f2e3d4c").temp_dir ≠ (initSettings "/tmp" "5a6b7c8d").temp_dir :=
  C6_temp_dir_is_uuid_path "/tmp" "1f2e3d4c" "5a6b7c8d" (by decide) (by decide) (by decide)

/-- C7: the run-failed-tests selection keeps a node from the model's node
lookup exactly when the node wraps a `unittest.TestCase` and its current
`get_status()` is fail or error; not-run, success and skipped nodes are
never selected. -/
theorem C7_run_failed_selects_fail_and_error (nodes result : List TestNode)
    (h : selectFailedNodes nodes = some result) (n : TestNode) :
    n ∈ result ↔ n ∈ nodes ∧ n.is_test_case = true ∧
      (TestNode.get_status n = some TestStatus.fail ∨
        TestNode.get_status n = some TestStatus.error) :=
  selectFailedNodes_mem nodes result h n

/-- C7 witness: from a lookup holding a passed and a failed leaf, the
failed leaf is selected (and characterized by the selection property). -/
theorem C7_witness :
    failLeaf ∈ [failLeaf] ↔ failLeaf ∈ [successLeaf, failLeaf] ∧
      failLeaf.is_test_case = true ∧
      (TestNode.get_status failLeaf = some TestStatus.fail ∨
        TestNode.get_status failLeaf = some TestStatus.error) :=
  C7_run_failed_selects_fail_and_error [successLeaf, failLeaf] [failLeaf] rfl failLeaf

/-- C8: evaluating `delete_temp_files` with deletion enabled on a state
holding one registered, existing temp file: the file and the temp
directory are removed from the filesystem, but — because the clearing line
assigns to the misspelled attribute `files_create` — the `files_created`
registry still holds the stale path afterwards instead of being empty, as
the method's own docstring promises. -/
theorem C8_registry_not_cleared :
    delete_temp_files sampleSettings ["/tmp/mayaunittest/u/a.txt"] sampleFS =
      (["/tmp/mayaunittest/u/a.txt"], ⟨["/other.txt"], ["/tmp"]⟩) ∧
      (["/tmp/mayaunittest/u/a.txt"] : List String) ≠ [] := by
  decide

/-- C9: `set_temp_dir` updates `Settings.temp_dir` to the directory
exactly when the directory exists; otherwise it raises a RuntimeError
naming the directory and leaves the settings unchanged. -/
theorem C9_set_temp_dir_atomic (existing : List String) (directory : String)
    (s : Settings) :
    (directory ∈ existing →
      set_temp_dir existing directory s = ({ s with temp_dir := directory }, none)) ∧
    (directory ∉ existing →
      set_temp_dir existing directory s = (s, some (directory ++ " does not exist."))) :=
  set_temp_dir_spec existing directory s

/-- C9 witness: an existing directory is installed; a missing one raises
and the settings stay as they were. -/
theorem C9_witness :
    set_temp_dir ["/projects"] "/projects" sampleSettings =
      ({ sampleSettings with temp_dir := "/projects" }, none) ∧
    set_temp_dir ["/projects"] "/missing" sampleSettings =
      (sampleSettings, some ("/missing" ++ " does not exist.")) :=
  ⟨(C9_set_temp_dir_atomic ["/projects"] "/projects" sampleSettings).1 (by decide),
    (C9_set_temp_dir_atomic ["/projects"] "/missing" sampleSettings).2 (by decide)⟩

/-- C10: `child` returns none (instead of raising) for every row index at
or beyond the child count, and returns the row-th element of the children
list for every row with 0 ≤ row < child count. -/
theorem C10_child_in_and_out_of_bounds (n : TestNode) (row : Int) :
    ((n.children.length : Int) ≤ row → n.child row = none) ∧
    (0 ≤ row → row < (n.children.length : Int) →
      n.child row = n.children.get? row.toNat ∧ (n.child row).isSome = true) :=
  child_bounds n row

/-- C10 witness: on a two-child suite, row 5 yields none and row 1 yields
the second child. -/
theorem C10_witness :
    (suiteOver [successLeaf, failLeaf]).child 5 = none ∧
      ((suiteOver [successLeaf, failLeaf]).child 1 =
          (suiteOver [successLeaf, failLeaf]).children.get? (Int.toNat 1) ∧
        ((suiteOver [successLeaf, failLeaf]).child 1).isSome = true) :=
  ⟨(C10_child_in_and_out_of_bounds (suiteOver [successLeaf, failLeaf]) 5).1 (by decide),
    (C10_child_in_and_out_of_bounds (suiteOver [successLeaf, failLeaf]) 1).2
      (by decide) (by decide)⟩

end Mayatest
